import Mathlib

/-!
Verification of the maze-editor core of the `py-ant-maze` repository.

The definitions below are shallow embeddings of the TypeScript/Python code of
`maze_editor/src/services/pyodide.ts`, `maze_editor/src/constants/defaults.ts`
(whose second half holds the extended pyodide service with the radial-arm and
3D operations) and `maze_editor/src/components/RadialArmGrid.tsx`.

Grids are rectangular integer matrices (`List (List ℤ)`); Python exceptions
become `Except` errors; the floating-point hub geometry is modelled over `ℝ`.
-/

/- ============================================================
   Grid resizing (`resize_grid`, pyodide.ts lines 233-250; the same helper
   is repeated verbatim inside `resizeMaze`, `resizeRadialArm` in
   defaults.ts).  The Python code first appends/truncates whole rows
   (new rows are filled with `fill` at the current column count, which is
   read from `grid[0]` before any row is appended), then pads/truncates
   every row to the target column count.
   ============================================================ -/

/-- Column-adjustment step of `resize_grid`: pad the row with `fill` at the
tail up to `targetCols`, or truncate it at the tail down to `targetCols`. -/
def adjustRow (row : List ℤ) (targetCols : ℕ) (fill : ℤ) : List ℤ :=
  if targetCols > row.length then
    row ++ List.replicate (targetCols - row.length) fill
  else if targetCols < row.length then
    row.take targetCols
  else
    row

/-- Embedding of the Python helper `resize_grid(grid, target_rows,
target_cols, fill_value)`. -/
def resize_grid (grid : List (List ℤ)) (targetRows targetCols : ℕ) (fill : ℤ) :
    List (List ℤ) :=
  (if targetRows > grid.length then
    grid ++ List.replicate (targetRows - grid.length)
      (List.replicate ((grid.head?.map List.length).getD 0) fill)
  else if targetRows < grid.length then
    grid.take targetRows
  else
    grid).map (fun row => adjustRow row targetCols fill)

/-- Look up entry `(r, c)` of a grid, with default `d` out of range. -/
def gridGetD (g : List (List ℤ)) (r c : ℕ) (d : ℤ) : ℤ :=
  (g.getD r []).getD c d

theorem adjustRow_eq (row : List ℤ) (tc : ℕ) (f : ℤ) :
    adjustRow row tc f = row.take tc ++ List.replicate (tc - row.length) f := by
  unfold adjustRow
  rcases lt_trichotomy row.length tc with h | h | h
  · rw [if_pos h, List.take_of_length_le (Nat.le_of_lt h)]
  · subst h
    rw [if_neg (lt_irrefl _), if_neg (lt_irrefl _), List.take_length,
      Nat.sub_self, List.replicate_zero, List.append_nil]
  · rw [if_neg (by omega), if_pos h, Nat.sub_eq_zero_of_le (Nat.le_of_lt h),
      List.replicate_zero, List.append_nil]

theorem adjustRow_length (row : List ℤ) (tc : ℕ) (f : ℤ) :
    (adjustRow row tc f).length = tc := by
  rw [adjustRow_eq]
  simp only [List.length_append, List.length_take, List.length_replicate]
  omega

theorem adjustRow_getD (row : List ℤ) (tc : ℕ) (f : ℤ) (c : ℕ) (hc : c < tc) :
    (adjustRow row tc f).getD c f = if c < row.length then row.getD c f else f := by
  rw [adjustRow_eq, List.getD_eq_getElem?_getD, List.getElem?_append,
    List.length_take]
  by_cases hcl : c < row.length
  · rw [if_pos (by omega), List.getElem?_take, if_pos hc, if_pos hcl,
      List.getD_eq_getElem?_getD]
  · rw [if_neg (by omega), List.getElem?_replicate, if_pos (by omega),
      if_neg hcl, Option.getD_some]

theorem resize_grid_eq (g : List (List ℤ)) (R C : ℕ) (f : ℤ) :
    resize_grid g R C f =
      (g.take R ++ List.replicate (R - g.length)
        (List.replicate ((g.head?.map List.length).getD 0) f)).map
        (fun row => adjustRow row C f) := by
  unfold resize_grid
  split_ifs with h1 h2
  · rw [List.take_of_length_le (Nat.le_of_lt h1)]
  · rw [Nat.sub_eq_zero_of_le (Nat.le_of_lt h2), List.replicate_zero,
      List.append_nil]
  · have hEq : R = g.length := by omega
    subst hEq
    rw [List.take_length, Nat.sub_self, List.replicate_zero, List.append_nil]

theorem resize_grid_length (g : List (List ℤ)) (R C : ℕ) (f : ℤ) :
    (resize_grid g R C f).length = R := by
  rw [resize_grid_eq]
  simp only [List.length_map, List.length_append, List.length_take,
    List.length_replicate]
  omega

theorem resize_grid_row_length (g : List (List ℤ)) (R C : ℕ) (f : ℤ) :
    ∀ row ∈ resize_grid g R C f, row.length = C := by
  rw [resize_grid_eq]
  intro row hrow
  obtain ⟨r, _, rfl⟩ := List.mem_map.mp hrow
  exact adjustRow_length r C f

theorem resize_grid_getD (g : List (List ℤ)) (H W R C : ℕ) (f : ℤ)
    (hH : g.length = H) (hW : ∀ row ∈ g, row.length = W)
    (r c : ℕ) (hr : r < R) (hc : c < C) :
    gridGetD (resize_grid g R C f) r c f =
      if r < H ∧ c < W then gridGetD g r c f else f := by
  subst hH
  rw [resize_grid_eq]
  unfold gridGetD
  rw [List.getD_eq_getElem?_getD (l := List.map _ _), List.getElem?_map,
    List.getElem?_append, List.length_take]
  by_cases hrH : r < g.length
  · rw [if_pos (by omega), List.getElem?_take, if_pos hr]
    have hmem : g[r] ∈ g := List.getElem_mem hrH
    rw [List.getElem?_eq_getElem hrH]
    simp only [Option.map_some', Option.getD_some]
    rw [adjustRow_getD _ _ _ _ hc, hW _ hmem]
    by_cases hcW : c < W
    · rw [if_pos hcW, if_pos ⟨hrH, hcW⟩]
      conv_rhs => rw [List.getD_eq_getElem?_getD g r, List.getElem?_eq_getElem hrH,
        Option.getD_some]
    · rw [if_neg hcW, if_neg (by tauto)]
  · rw [if_neg (by omega), List.getElem?_replicate, if_pos (by omega)]
    simp only [Option.map_some', Option.getD_some]
    rw [if_neg (by tauto), adjustRow_getD _ _ _ _ hc, List.length_replicate]
    by_cases hcc : c < ((g.head?.map List.length).getD 0)
    · rw [if_pos hcc, List.getD_eq_getElem?_getD, List.getElem?_replicate,
        if_pos hcc, Option.getD_some]
    · rw [if_neg hcc]

theorem resize_grid_grow (g : List (List ℤ)) (H W R C : ℕ) (f : ℤ)
    (hH : g.length = H) (hW : ∀ row ∈ g, row.length = W)
    (hR : H ≤ R) (hC : W ≤ C) :
    resize_grid g R C f =
      g.map (fun row => row ++ List.replicate (C - W) f) ++
        List.replicate (R - H) (List.replicate C f) := by
  subst hH
  have hcc : ((g.head?.map List.length).getD 0) ≤ C := by
    cases g with
    | nil => simp
    | cons a t =>
      simp only [List.head?_cons, Option.map_some', Option.getD_some]
      rw [hW a (List.mem_cons_self a t)]
      exact hC
  rw [resize_grid_eq, List.take_of_length_le hR, List.map_append,
    List.map_replicate]
  congr 1
  · apply List.map_congr_left
    intro row hrow
    rw [adjustRow_eq, hW _ hrow,
      List.take_of_length_le (le_of_eq_of_le (hW _ hrow) hC)]
  · congr 1
    rw [adjustRow_eq, List.length_replicate, List.take_replicate,
      min_eq_right hcc, ← List.replicate_add]
    congr 1
    omega

theorem resize_grid_shrink (g : List (List ℤ)) (R C : ℕ) (f : ℤ)
    (hR : R ≤ g.length) (hC : ∀ row ∈ g, C ≤ row.length) :
    resize_grid g R C f = (g.take R).map (fun row => row.take C) := by
  rw [resize_grid_eq, Nat.sub_eq_zero_of_le hR, List.replicate_zero,
    List.append_nil]
  apply List.map_congr_left
  intro row hrow
  have hmem : row ∈ g := List.mem_of_mem_take hrow
  rw [adjustRow_eq, Nat.sub_eq_zero_of_le (hC _ hmem), List.replicate_zero,
    List.append_nil]

/- ============================================================
   Errors raised by the editor operations.  Python raises `ValueError`
   (with a message) or `IndexError`; the distinct situations are kept
   apart here as a typed enumeration.
   ============================================================ -/

inductive MazeError
  | typeMismatch
  | indexError
  | invalidAngle
  | invalidHubSize
  | invalidArmCount
  | emptyArms
  | duplicateName
  | duplicateToken
deriving DecidableEq

/- ============================================================
   Element registry (`addElement`, pyodide.ts lines 272-318).  The Python
   code walks the existing element entries of the targeted list in order;
   for each entry it first compares the name, then the token, and raises on
   the first match; otherwise the new entry is appended at the end and only
   then is a maze constructed from the updated document.
   ============================================================ -/

structure MazeElement where
  name : String
  token : String
deriving DecidableEq

/-- The duplicate scan of `addElement`: first entry matching the new name or
token (name checked first on each entry) decides the error. -/
def findDuplicate : List MazeElement → String → String → Option MazeError
  | [], _, _ => none
  | e :: rest, n, t =>
    if e.name = n then some MazeError.duplicateName
    else if e.token = t then some MazeError.duplicateToken
    else findDuplicate rest n t

/-- Embedding of `addElement` (the Python part operating on the targeted
element list of the YAML document): duplicate checks, then append. -/
def addElement (elements : List MazeElement) (n t : String) :
    Except MazeError (List MazeElement) :=
  match findDuplicate elements n t with
  | some err => Except.error err
  | none => Except.ok (elements ++ [{ name := n, token := t }])

theorem findDuplicate_eq_none (es : List MazeElement) (n t : String)
    (h : ∀ e ∈ es, e.name ≠ n ∧ e.token ≠ t) :
    findDuplicate es n t = none := by
  induction es with
  | nil => rfl
  | cons e rest ih =>
    obtain ⟨hn, ht⟩ := h e (List.mem_cons_self e rest)
    unfold findDuplicate
    rw [if_neg hn, if_neg ht]
    exact ih fun x hx => h x (List.mem_cons_of_mem e hx)

theorem findDuplicate_isSome (es : List MazeElement) (n t : String)
    (h : ∃ e ∈ es, e.name = n ∨ e.token = t) :
    findDuplicate es n t ≠ none := by
  induction es with
  | nil => simp at h
  | cons e rest ih =>
    unfold findDuplicate
    by_cases hn : e.name = n
    · rw [if_pos hn]; simp
    · rw [if_neg hn]
      by_cases ht : e.token = t
      · rw [if_pos ht]; simp
      · rw [if_neg ht]
        apply ih
        obtain ⟨x, hx, hor⟩ := h
        rcases List.mem_cons.mp hx with rfl | hx2
        · tauto
        · exact ⟨x, hx2, hor⟩

theorem findDuplicate_name (es : List MazeElement) (n t : String)
    (hname : ∃ e ∈ es, e.name = n) (htok : ∀ e ∈ es, e.token ≠ t) :
    findDuplicate es n t = some MazeError.duplicateName := by
  induction es with
  | nil => simp at hname
  | cons e rest ih =>
    unfold findDuplicate
    by_cases hn : e.name = n
    · rw [if_pos hn]
    · rw [if_neg hn, if_neg (htok e (List.mem_cons_self e rest))]
      apply ih
      · obtain ⟨x, hx, hxn⟩ := hname
        rcases List.mem_cons.mp hx with rfl | hx2
        · exact absurd hxn hn
        · exact ⟨x, hx2, hxn⟩
      · exact fun x hx => htok x (List.mem_cons_of_mem e hx)

theorem findDuplicate_token (es : List MazeElement) (n t : String)
    (htok : ∃ e ∈ es, e.token = t) (hname : ∀ e ∈ es, e.name ≠ n) :
    findDuplicate es n t = some MazeError.duplicateToken := by
  induction es with
  | nil => simp at htok
  | cons e rest ih =>
    unfold findDuplicate
    rw [if_neg (hname e (List.mem_cons_self e rest))]
    by_cases ht : e.token = t
    · rw [if_pos ht]
    · rw [if_neg ht]
      apply ih
      · obtain ⟨x, hx, hxt⟩ := htok
        rcases List.mem_cons.mp hx with rfl | hx2
        · exact absurd hxt ht
        · exact ⟨x, hx2, hxt⟩
      · exact fun x hx => hname x (List.mem_cons_of_mem e hx)

/- ============================================================
   Layout data model (types/maze.ts, and the shapes produced by the
   py_ant_maze wheel as consumed by the pyodide service):
   occupancy_grid carries one grid; edge_grid carries cells plus two wall
   grids; radial_arm carries an ordered arm list (each arm edge-shaped)
   and a hub (circular with a radius, or polygon with a side length).
   ============================================================ -/

structure EdgeLayout where
  cells : List (List ℤ)
  vertical_walls : List (List ℤ)
  horizontal_walls : List (List ℤ)
deriving DecidableEq

structure Arm where
  cells : List (List ℤ)
  vertical_walls : List (List ℤ)
  horizontal_walls : List (List ℤ)
deriving DecidableEq

inductive HubShape
  | circular
  | polygon
deriving DecidableEq

structure Hub where
  shape : HubShape
  angle_degrees : ℝ
  radius : Option ℝ
  side_length : Option ℝ

structure RadialLayout where
  arms : List Arm
  hub : Hub

inductive Layout2D
  | occupancy (grid : List (List ℤ))
  | edge (e : EdgeLayout)
  | radial (l : RadialLayout)

def occupancyTypeName : String := "occupancy_grid"

def edgeTypeName : String := "edge_grid"

def radialTypeName : String := "radial_arm"

/-- The `maze_type` field of the document backing each layout. -/
def mazeTypeName : Layout2D → String
  | Layout2D.occupancy _ => occupancyTypeName
  | Layout2D.edge _ => edgeTypeName
  | Layout2D.radial _ => radialTypeName

/-- The `gridType` parameter of the editing operations. -/
inductive GridType
  | grid
  | cells
  | vertical_walls
  | horizontal_walls
deriving DecidableEq

/-- Python `grid[row][col] = value` on a list of lists: in-range assignment,
`IndexError` otherwise. -/
def setCell (g : List (List ℤ)) (r c : ℕ) (v : ℤ) :
    Except MazeError (List (List ℤ)) :=
  if r < g.length then
    if c < (g.getD r []).length then
      Except.ok (g.set r ((g.getD r []).set c v))
    else Except.error MazeError.indexError
  else Except.error MazeError.indexError

/-- Embedding of `updateMaze` (pyodide.ts lines 143-174).  The Python code
branches on `maze_type` (occupancy_grid / edge_grid) and on `grid_type`;
any combination without a branch falls through and the maze is returned
unchanged as a success. -/
def updateMaze (m : Layout2D) (row col : ℕ) (v : ℤ) (gridType : GridType) :
    Except MazeError Layout2D :=
  match m with
  | Layout2D.occupancy g => (setCell g row col v).map Layout2D.occupancy
  | Layout2D.edge e =>
    match gridType with
    | GridType.cells =>
      (setCell e.cells row col v).map fun g2 =>
        Layout2D.edge { e with cells := g2 }
    | GridType.vertical_walls =>
      (setCell e.vertical_walls row col v).map fun g2 =>
        Layout2D.edge { e with vertical_walls := g2 }
    | GridType.horizontal_walls =>
      (setCell e.horizontal_walls row col v).map fun g2 =>
        Layout2D.edge { e with horizontal_walls := g2 }
    | GridType.grid => Except.ok (Layout2D.edge e)
  | Layout2D.radial l => Except.ok (Layout2D.radial l)

/-- One `grid_type` branch of `updateRadialArmCell`; a `grid_type` value with
no branch falls through leaving the arm unchanged. -/
def updateArm (arm : Arm) (gridType : GridType) (r c : ℕ) (v : ℤ) :
    Except MazeError Arm :=
  match gridType with
  | GridType.cells =>
    (setCell arm.cells r c v).map fun g2 => { arm with cells := g2 }
  | GridType.vertical_walls =>
    (setCell arm.vertical_walls r c v).map fun g2 =>
      { arm with vertical_walls := g2 }
  | GridType.horizontal_walls =>
    (setCell arm.horizontal_walls r c v).map fun g2 =>
      { arm with horizontal_walls := g2 }
  | GridType.grid => Except.ok arm

/-- Embedding of `updateRadialArmCell` (pyodide.ts lines 179-213): raises a
type-mismatch `ValueError` unless `maze_type == radial_arm`, then indexes
the arm (`IndexError` out of range) and assigns into the selected grid. -/
def updateRadialArmCell (m : Layout2D) (armIndex row col : ℕ) (v : ℤ)
    (gridType : GridType) : Except MazeError Layout2D :=
  match m with
  | Layout2D.radial l =>
    if h : armIndex < l.arms.length then
      (updateArm (l.arms.get ⟨armIndex, h⟩) gridType row col v).map fun a2 =>
        Layout2D.radial { l with arms := l.arms.set armIndex a2 }
    else Except.error MazeError.indexError
  | Layout2D.occupancy _ => Except.error MazeError.typeMismatch
  | Layout2D.edge _ => Except.error MazeError.typeMismatch

/-- The edge_grid branch of `resizeMaze`: cells to R×C with the given fill,
vertical walls to R×(C+1) and horizontal walls to (R+1)×C with fill 0. -/
def resizeEdgeLayout (e : EdgeLayout) (R C : ℕ) (f : ℤ) : EdgeLayout :=
  { cells := resize_grid e.cells R C f,
    vertical_walls := resize_grid e.vertical_walls R (C + 1) 0,
    horizontal_walls := resize_grid e.horizontal_walls (R + 1) C 0 }

/-- Embedding of `resizeMaze` (pyodide.ts lines 218-267): occupancy and edge
grids are resized; a radial_arm maze has no branch, so it is returned
unchanged (the comment in the source reads `radial_arm resize not
supported`). -/
def resizeMaze (m : Layout2D) (R C : ℕ) (f : ℤ) : Layout2D :=
  match m with
  | Layout2D.occupancy g => Layout2D.occupancy (resize_grid g R C f)
  | Layout2D.edge e => Layout2D.edge (resizeEdgeLayout e R C f)
  | Layout2D.radial l => Layout2D.radial l

/-- The edge_grid_3d branch of the extended `resizeMaze` (defaults.ts lines
465-470): every level is resized with the same edge rule. -/
def resizeEdge3D (levels : List EdgeLayout) (R C : ℕ) (f : ℤ) :
    List EdgeLayout :=
  levels.map fun e => resizeEdgeLayout e R C f

/- ============================================================
   Radial-arm hub sizing (defaults.ts second half).  The circular minimum
   radius is `max(arm_widths) * len(arms) / radians(angle_degrees)`; the
   polygon minimum side length is `max(arm_widths)`.  The recompute blocks
   of `resizeRadialArm` (lines 533-551) and `setRadialArmCount` (lines
   617-635) raise a stored size below the recomputed minimum and leave a
   larger stored size alone; `setRadialArmHubSize` (lines 680-724)
   instead rejects a requested size below the minimum.
   ============================================================ -/

def armWidths (arms : List Arm) : List ℕ :=
  arms.map fun a => a.cells.length

/-- Python `max(arm_widths)`; the operations below only reach it with a
nonempty arm list (Python raises on an empty one, mirrored by explicit
error branches before this is used). -/
def maxArmWidth (arms : List Arm) : ℕ :=
  (armWidths arms).foldl max 0

noncomputable section

/-- `min_radius = total_width / angle_radians` with
`total_width = max_width * arm_count` and
`angle_radians = math.radians(angle_degrees)`. -/
def minCircularRadius (maxWidth armCount : ℕ) (angleDeg : ℝ) : ℝ :=
  ((maxWidth : ℝ) * (armCount : ℝ)) / (angleDeg * Real.pi / 180)

/-- The minimum hub size the recompute blocks enforce, per hub shape. -/
def hubMinSize (arms : List Arm) (hub : Hub) : ℝ :=
  match hub.shape with
  | HubShape.circular =>
    minCircularRadius (maxArmWidth arms) arms.length hub.angle_degrees
  | HubShape.polygon => (maxArmWidth arms : ℝ)

/-- The stored hub size: `radius` for a circular hub, `side_length` for a
polygon hub. -/
def hubStoredSize (hub : Hub) : Option ℝ :=
  match hub.shape with
  | HubShape.circular => hub.radius
  | HubShape.polygon => hub.side_length

/-- The recompute-minimum block shared by `resizeRadialArm` and
`setRadialArmCount`: a missing or too-small stored size is raised to the
minimum, a stored size at or above the minimum is kept. -/
def raiseHubSize (arms : List Arm) (hub : Hub) : Hub :=
  match hub.shape with
  | HubShape.circular =>
    let minR := minCircularRadius (maxArmWidth arms) arms.length hub.angle_degrees
    match hub.radius with
    | none => { hub with radius := some minR }
    | some r =>
      if r < minR then { hub with radius := some minR } else hub
  | HubShape.polygon =>
    let minS : ℝ := (maxArmWidth arms : ℝ)
    match hub.side_length with
    | none => { hub with side_length := some minS }
    | some s =>
      if s < minS then { hub with side_length := some minS } else hub

/-- Modelled from the spec: the `freeze` of the `py_ant_maze` package (its
Python sources are not part of the editor tree) re-runs validation and may
adjust derived fields, the documented example being an auto-raised hub
size; a radial layout without arms has no defined minimum and fails.
Structural validation of the arm grids is not modelled, as every embedded
operation preserves it. -/
def freezeRadial (l : RadialLayout) : Except MazeError RadialLayout :=
  if l.arms = [] then Except.error MazeError.emptyArms
  else Except.ok { l with hub := raiseHubSize l.arms l.hub }

/-- Embedding of `setRadialArmHubSize` (defaults.ts lines 680-724): a
requested size strictly below the minimum is rejected; otherwise the
stored size becomes exactly the request and the draft is frozen. -/
def setRadialArmHubSize (l : RadialLayout) (newSize : ℝ) :
    Except MazeError RadialLayout :=
  if l.arms = [] then Except.error MazeError.emptyArms
  else
    match l.hub.shape with
    | HubShape.circular =>
      if newSize <
          minCircularRadius (maxArmWidth l.arms) l.arms.length l.hub.angle_degrees then
        Except.error MazeError.invalidHubSize
      else
        freezeRadial { l with hub := { l.hub with radius := some newSize } }
    | HubShape.polygon =>
      if newSize < (maxArmWidth l.arms : ℝ) then
        Except.error MazeError.invalidHubSize
      else
        freezeRadial { l with hub := { l.hub with side_length := some newSize } }

/-- Embedding of `setRadialArmAngle` (defaults.ts lines 648-675): rejects an
angle below 1 or above 360 degrees, otherwise stores the angle and
freezes. -/
def setRadialArmAngle (l : RadialLayout) (angleDeg : ℝ) :
    Except MazeError RadialLayout :=
  if angleDeg < 1 ∨ angleDeg > 360 then Except.error MazeError.invalidAngle
  else freezeRadial { l with hub := { l.hub with angle_degrees := angleDeg } }

/-- A fresh arm as built by `setRadialArmCount`: template dimensions, default
cell and wall values. -/
def mkArm (rows cols : ℕ) (dc dw : ℤ) : Arm :=
  { cells := List.replicate rows (List.replicate cols dc),
    vertical_walls := List.replicate rows (List.replicate (cols + 1) dw),
    horizontal_walls := List.replicate (rows + 1) (List.replicate cols dw) }

/-- Embedding of `setRadialArmCount` (defaults.ts lines 566-643): a target
below 1 is rejected; a larger target appends fresh arms sized after the
last existing arm (`IndexError` when there is none); a smaller target
keeps the leading arms; then the minimum hub size is recomputed and the
draft frozen. -/
def setRadialArmCount (l : RadialLayout) (newCount : ℕ) (dc dw : ℤ) :
    Except MazeError RadialLayout :=
  if newCount < 1 then Except.error MazeError.invalidArmCount
  else if newCount > l.arms.length then
    match l.arms.getLast? with
    | none => Except.error MazeError.indexError
    | some template =>
      let rows := template.cells.length
      let cols := ((template.cells.head?.map List.length).getD 4)
      let arms2 := l.arms ++
        List.replicate (newCount - l.arms.length) (mkArm rows cols dc dw)
      freezeRadial { arms := arms2, hub := raiseHubSize arms2 l.hub }
  else
    let arms2 := l.arms.take newCount
    freezeRadial { arms := arms2, hub := raiseHubSize arms2 l.hub }

/-- Embedding of `resizeRadialArm` (defaults.ts lines 484-559): the indexed
arm's cells are resized to width×length with the default cell value, its
vertical walls to width×(length+1) and horizontal walls to
(width+1)×length with the default wall value; then the minimum hub size
is recomputed and the draft frozen. -/
def resizeRadialArm (l : RadialLayout) (armIndex newWidth newLength : ℕ)
    (dc dw : ℤ) : Except MazeError RadialLayout :=
  if h : armIndex < l.arms.length then
    let arm := l.arms.get ⟨armIndex, h⟩
    let arm2 : Arm :=
      { cells := resize_grid arm.cells newWidth newLength dc,
        vertical_walls := resize_grid arm.vertical_walls newWidth (newLength + 1) dw,
        horizontal_walls := resize_grid arm.horizontal_walls (newWidth + 1) newLength dw }
    let arms2 := l.arms.set armIndex arm2
    freezeRadial { arms := arms2, hub := raiseHubSize arms2 l.hub }
  else Except.error MazeError.indexError

end

/- ============================================================
   Rendering geometry of RadialArmGrid.tsx: arm axis angles, circular hub
   connection distance, polygon circumradius and apothem.  `cellSizePx`
   is the fixed 48-pixel cell size of the component; positions are in
   pixels, one cell unit being `cellSizePx` pixels.
   ============================================================ -/

noncomputable section

/-- `angleSpan = hub.angle_degrees * Math.PI / 180` (RadialArmGrid.tsx
line 56). -/
def angleSpanOf (angleDeg : ℝ) : ℝ := angleDeg * Real.pi / 180

/-- `startAngle = -Math.PI / 2` (line 57, start from the top). -/
def startAngleRef : ℝ := -(Real.pi / 2)

/-- `armAngle = startAngle + (armIdx + 0.5) * anglePerArm` with
`anglePerArm = angleSpan / armCount` (lines 155 and 252). -/
def armAngle (angleDeg : ℝ) (armCount i : ℕ) : ℝ :=
  startAngleRef + ((i : ℝ) + 0.5) * (angleSpanOf angleDeg / (armCount : ℝ))

/-- `cellSize = 48` (line 60). -/
def cellSizePx : ℝ := 48

/-- `armCenterDistance = sqrt(max(0, R² − halfWidth²))` for a circular hub
(lines 374-383), in pixels, with `R = hub.radius * cellSize` and
`halfWidth = armWidth * cellSize / 2`. -/
def circularArmCenterDistance (radius : ℝ) (armWidth : ℕ) : ℝ :=
  Real.sqrt (max 0 ((radius * cellSizePx) ^ 2 -
    ((armWidth : ℝ) * cellSizePx / 2) ^ 2))

/-- `halfAngleStep = angleSpan / sides / 2` (line 80). -/
def polygonHalfAngleStep (angleDeg : ℝ) (sides : ℕ) : ℝ :=
  angleSpanOf angleDeg / (sides : ℝ) / 2

/-- `hubRadius = sideLength / (2 * sin(halfAngleStep))` (line 81), with
`sideLength` in pixels. -/
def polygonCircumradius (sideLength angleDeg : ℝ) (sides : ℕ) : ℝ :=
  sideLength * cellSizePx / (2 * Real.sin (polygonHalfAngleStep angleDeg sides))

/-- `hubApothem = hubRadius * cos(halfAngleStep)` (line 83); a polygon arm
connects at this distance (line 385). -/
def polygonApothem (sideLength angleDeg : ℝ) (sides : ℕ) : ℝ :=
  polygonCircumradius sideLength angleDeg sides *
    Real.cos (polygonHalfAngleStep angleDeg sides)

end

theorem raiseHubSize_shape (arms : List Arm) (hub : Hub) :
    (raiseHubSize arms hub).shape = hub.shape := by
  cases hub with
  | mk shape angle radius side =>
    cases shape <;> cases radius <;> cases side <;>
      (dsimp only [raiseHubSize]; try split_ifs) <;> rfl

theorem raiseHubSize_angle (arms : List Arm) (hub : Hub) :
    (raiseHubSize arms hub).angle_degrees = hub.angle_degrees := by
  cases hub with
  | mk shape angle radius side =>
    cases shape <;> cases radius <;> cases side <;>
      (dsimp only [raiseHubSize]; try split_ifs) <;> rfl

theorem hubMinSize_congr (arms : List Arm) (h1 h2 : Hub)
    (hsh : h1.shape = h2.shape) (han : h1.angle_degrees = h2.angle_degrees) :
    hubMinSize arms h1 = hubMinSize arms h2 := by
  unfold hubMinSize
  rw [hsh, han]

theorem hubMinSize_raise_eq (arms : List Arm) (hub : Hub) :
    hubMinSize arms (raiseHubSize arms hub) = hubMinSize arms hub :=
  hubMinSize_congr arms _ _ (raiseHubSize_shape arms hub)
    (raiseHubSize_angle arms hub)

theorem hubStoredSize_raise (arms : List Arm) (hub : Hub) (s : ℝ)
    (hs : hubStoredSize hub = some s) :
    hubStoredSize (raiseHubSize arms hub) = some (max s (hubMinSize arms hub)) := by
  cases hub with
  | mk shape angle radius side =>
    cases shape
    · dsimp only [hubStoredSize] at hs
      cases radius with
      | none => exact absurd hs (by simp)
      | some r =>
        rw [Option.some_inj] at hs
        subst hs
        dsimp only [raiseHubSize, hubStoredSize, hubMinSize]
        split_ifs with h
        · rw [max_eq_right (le_of_lt h)]
        · rw [max_eq_left (not_lt.mp h)]
    · dsimp only [hubStoredSize] at hs
      cases side with
      | none => exact absurd hs (by simp)
      | some r =>
        rw [Option.some_inj] at hs
        subst hs
        dsimp only [raiseHubSize, hubStoredSize, hubMinSize]
        split_ifs with h
        · rw [max_eq_right (le_of_lt h)]
        · rw [max_eq_left (not_lt.mp h)]

theorem raiseHubSize_noop (arms : List Arm) (hub : Hub) (s : ℝ)
    (hs : hubStoredSize hub = some s) (h : hubMinSize arms hub ≤ s) :
    raiseHubSize arms hub = hub := by
  cases hub with
  | mk shape angle radius side =>
    cases shape
    · dsimp only [hubStoredSize] at hs
      dsimp only [hubMinSize] at h
      cases radius with
      | none => exact absurd hs (by simp)
      | some r =>
        rw [Option.some_inj] at hs
        subst hs
        dsimp only [raiseHubSize]
        rw [if_neg (not_lt.mpr h)]
    · dsimp only [hubStoredSize] at hs
      dsimp only [hubMinSize] at h
      cases side with
      | none => exact absurd hs (by simp)
      | some r =>
        rw [Option.some_inj] at hs
        subst hs
        dsimp only [raiseHubSize]
        rw [if_neg (not_lt.mpr h)]

theorem raiseHubSize_twice (arms : List Arm) (hub : Hub) (s : ℝ)
    (hs : hubStoredSize hub = some s) :
    raiseHubSize arms (raiseHubSize arms hub) = raiseHubSize arms hub :=
  raiseHubSize_noop arms _ (max s (hubMinSize arms hub))
    (hubStoredSize_raise arms hub s hs)
    (by rw [hubMinSize_raise_eq]; exact le_max_right _ _)

/-- Raise-only contract relative to a previously stored size `s`: the new
stored size is exactly `max s newMin` for the minimum recomputed from the
resulting arms and angle — so it never went down, it meets the new
minimum, it stayed exactly `s` whenever `s` already met the new minimum,
and a too-small `s` was raised exactly up to the new minimum. -/
def RaiseOnlyFrom (s : ℝ) (l2 : RadialLayout) : Prop :=
  ∃ s2, hubStoredSize l2.hub = some s2 ∧
    s2 = max s (hubMinSize l2.arms l2.hub) ∧
    s ≤ s2 ∧ hubMinSize l2.arms l2.hub ≤ s2 ∧
    (hubMinSize l2.arms l2.hub ≤ s → s2 = s) ∧
    (s < hubMinSize l2.arms l2.hub → s2 = hubMinSize l2.arms l2.hub)

theorem raise_raiseOnlyFrom (arms2 : List Arm) (hub2 : Hub) (s : ℝ)
    (hs : hubStoredSize hub2 = some s) :
    RaiseOnlyFrom s { arms := arms2, hub := raiseHubSize arms2 hub2 } := by
  have hmin : hubMinSize (RadialLayout.mk arms2 (raiseHubSize arms2 hub2)).arms
      (RadialLayout.mk arms2 (raiseHubSize arms2 hub2)).hub =
      hubMinSize arms2 hub2 := hubMinSize_raise_eq arms2 hub2
  refine ⟨max s (hubMinSize arms2 hub2), hubStoredSize_raise arms2 hub2 s hs,
    ?_, le_max_left _ _, ?_, ?_, ?_⟩
  · rw [hmin]
  · rw [hmin]
    exact le_max_right _ _
  · intro h
    rw [hmin] at h
    exact max_eq_left h
  · intro h
    rw [hmin] at h
    rw [hmin]
    exact max_eq_right (le_of_lt h)

theorem hubStoredSize_setAngle (hub : Hub) (a : ℝ) :
    hubStoredSize { hub with angle_degrees := a } = hubStoredSize hub := by
  cases hub with
  | mk shape angle radius side => cases shape <;> rfl

theorem setRadialArmAngle_ok (l : RadialLayout) (a : ℝ) (hne : l.arms ≠ [])
    (h1 : 1 ≤ a) (h2 : a ≤ 360) :
    setRadialArmAngle l a = Except.ok
      { arms := l.arms,
        hub := raiseHubSize l.arms { l.hub with angle_degrees := a } } := by
  unfold setRadialArmAngle freezeRadial
  rw [if_neg (by push_neg; exact ⟨h1, h2⟩), if_neg hne]

theorem setRadialArmAngle_err (l : RadialLayout) (a : ℝ)
    (h : a < 1 ∨ a > 360) :
    setRadialArmAngle l a = Except.error MazeError.invalidAngle := by
  unfold setRadialArmAngle
  rw [if_pos h]

theorem setRadialArmCount_grow (l : RadialLayout) (n : ℕ) (dc dw : ℤ)
    (t : Arm) (W L : ℕ) (hlast : l.arms.getLast? = some t)
    (hW : t.cells.length = W) (hL : (t.cells.head?.map List.length).getD 4 = L)
    (hgt : l.arms.length < n) :
    setRadialArmCount l n dc dw = Except.ok
      { arms := l.arms ++ List.replicate (n - l.arms.length) (mkArm W L dc dw),
        hub := raiseHubSize
          (l.arms ++ List.replicate (n - l.arms.length) (mkArm W L dc dw))
          (raiseHubSize
            (l.arms ++ List.replicate (n - l.arms.length) (mkArm W L dc dw))
            l.hub) } := by
  subst hW
  subst hL
  have hne : l.arms ≠ [] := by
    intro h0
    rw [h0] at hlast
    simp at hlast
  unfold setRadialArmCount freezeRadial
  rw [if_neg (by omega), if_pos hgt, hlast]
  dsimp only
  rw [if_neg (by simp [hne])]

theorem setRadialArmCount_shrink (l : RadialLayout) (n : ℕ) (dc dw : ℤ)
    (h1 : 1 ≤ n) (hle : n ≤ l.arms.length) :
    setRadialArmCount l n dc dw = Except.ok
      { arms := l.arms.take n,
        hub := raiseHubSize (l.arms.take n)
          (raiseHubSize (l.arms.take n) l.hub) } := by
  have hne : l.arms.take n ≠ [] := by
    have : (l.arms.take n).length = n := by
      rw [List.length_take]
      omega
    intro h0
    rw [h0] at this
    simp at this
    omega
  unfold setRadialArmCount
  rw [if_neg (by omega), if_neg (by omega)]
  unfold freezeRadial
  rw [if_neg hne]

theorem setRadialArmCount_err (l : RadialLayout) (dc dw : ℤ) :
    setRadialArmCount l 0 dc dw = Except.error MazeError.invalidArmCount := by
  unfold setRadialArmCount
  rw [if_pos (by omega)]

theorem resizeRadialArm_ok (l : RadialLayout) (i w len : ℕ) (dc dw : ℤ)
    (h : i < l.arms.length) :
    resizeRadialArm l i w len dc dw = Except.ok
      { arms := l.arms.set i
          { cells := resize_grid (l.arms.get ⟨i, h⟩).cells w len dc,
            vertical_walls :=
              resize_grid (l.arms.get ⟨i, h⟩).vertical_walls w (len + 1) dw,
            horizontal_walls :=
              resize_grid (l.arms.get ⟨i, h⟩).horizontal_walls (w + 1) len dw },
        hub := raiseHubSize (l.arms.set i
          { cells := resize_grid (l.arms.get ⟨i, h⟩).cells w len dc,
            vertical_walls :=
              resize_grid (l.arms.get ⟨i, h⟩).vertical_walls w (len + 1) dw,
            horizontal_walls :=
              resize_grid (l.arms.get ⟨i, h⟩).horizontal_walls (w + 1) len dw })
          (raiseHubSize (l.arms.set i
            { cells := resize_grid (l.arms.get ⟨i, h⟩).cells w len dc,
              vertical_walls :=
                resize_grid (l.arms.get ⟨i, h⟩).vertical_walls w (len + 1) dw,
              horizontal_walls :=
                resize_grid (l.arms.get ⟨i, h⟩).horizontal_walls (w + 1) len dw })
            l.hub) } := by
  have hne : ∀ a : Arm, l.arms.set i a ≠ [] := by
    intro a h0
    have hlen := congrArg List.length h0
    rw [List.length_set] at hlen
    simp only [List.length_nil] at hlen
    omega
  unfold resizeRadialArm freezeRadial
  rw [dif_pos h]
  dsimp only
  rw [if_neg (hne _)]

theorem setRadialArmHubSize_circular_err (l : RadialLayout) (size : ℝ)
    (hne : l.arms ≠ []) (hsh : l.hub.shape = HubShape.circular)
    (hlt : size <
      minCircularRadius (maxArmWidth l.arms) l.arms.length l.hub.angle_degrees) :
    setRadialArmHubSize l size = Except.error MazeError.invalidHubSize := by
  obtain ⟨arms, hub⟩ := l
  obtain ⟨sh, an, rad, si⟩ := hub
  dsimp only at hsh hlt hne
  subst hsh
  unfold setRadialArmHubSize
  dsimp only
  rw [if_neg hne, if_pos hlt]

theorem setRadialArmHubSize_circular_ok (l : RadialLayout) (size : ℝ)
    (hne : l.arms ≠ []) (hsh : l.hub.shape = HubShape.circular)
    (hge : minCircularRadius (maxArmWidth l.arms) l.arms.length
      l.hub.angle_degrees ≤ size) :
    setRadialArmHubSize l size = Except.ok
      { arms := l.arms, hub := { l.hub with radius := some size } } := by
  obtain ⟨arms, hub⟩ := l
  obtain ⟨sh, an, rad, si⟩ := hub
  dsimp only at hsh hge hne ⊢
  subst hsh
  unfold setRadialArmHubSize
  dsimp only
  rw [if_neg hne, if_neg (not_lt.mpr hge)]
  unfold freezeRadial
  dsimp only
  rw [if_neg hne]
  have hnoop := raiseHubSize_noop arms
    { shape := HubShape.circular, angle_degrees := an, radius := some size,
      side_length := si } size rfl hge
  rw [hnoop]

theorem setRadialArmHubSize_polygon_err (l : RadialLayout) (size : ℝ)
    (hne : l.arms ≠ []) (hsh : l.hub.shape = HubShape.polygon)
    (hlt : size < (maxArmWidth l.arms : ℝ)) :
    setRadialArmHubSize l size = Except.error MazeError.invalidHubSize := by
  obtain ⟨arms, hub⟩ := l
  obtain ⟨sh, an, rad, si⟩ := hub
  dsimp only at hsh hlt hne
  subst hsh
  unfold setRadialArmHubSize
  dsimp only
  rw [if_neg hne, if_pos hlt]

theorem setRadialArmHubSize_polygon_ok (l : RadialLayout) (size : ℝ)
    (hne : l.arms ≠ []) (hsh : l.hub.shape = HubShape.polygon)
    (hge : (maxArmWidth l.arms : ℝ) ≤ size) :
    setRadialArmHubSize l size = Except.ok
      { arms := l.arms, hub := { l.hub with side_length := some size } } := by
  obtain ⟨arms, hub⟩ := l
  obtain ⟨sh, an, rad, si⟩ := hub
  dsimp only at hsh hge hne ⊢
  subst hsh
  unfold setRadialArmHubSize
  dsimp only
  rw [if_neg hne, if_neg (not_lt.mpr hge)]
  unfold freezeRadial
  dsimp only
  rw [if_neg hne]
  have hnoop := raiseHubSize_noop arms
    { shape := HubShape.polygon, angle_degrees := an, radius := rad,
      side_length := some size } size rfl hge
  rw [hnoop]

/- ============================================================
   Concrete fixtures used by the witnesses and counterexamples: a valid
   4-arm circular radial layout (arm width 3, arm length 4, angle span
   360 degrees, radius 2 which is above the minimum 12/(2*pi)), a small
   edge layout, an occupancy grid and a small element list.
   ============================================================ -/

def sampleArm : Arm :=
  { cells := List.replicate 3 (List.replicate 4 0),
    vertical_walls := List.replicate 3 (List.replicate 5 1),
    horizontal_walls := List.replicate 4 (List.replicate 4 1) }

noncomputable def sampleHub : Hub :=
  { shape := HubShape.circular, angle_degrees := 360, radius := some 2,
    side_length := none }

noncomputable def sampleRadial : RadialLayout :=
  { arms := [sampleArm, sampleArm, sampleArm, sampleArm], hub := sampleHub }

def sampleEdge : EdgeLayout :=
  { cells := [[0, 0], [0, 0]],
    vertical_walls := [[1, 0, 1], [1, 0, 1]],
    horizontal_walls := [[1, 1], [0, 0], [1, 1]] }

def sampleGrid4 : List (List ℤ) :=
  [[1, 1, 1, 1], [1, 0, 0, 1], [1, 0, 0, 1], [1, 1, 1, 1]]

def sampleElements : List MazeElement :=
  [{ name := "wall", token := "#" }, { name := "open", token := "." }]

/- ============================================================
   Claim theorems.
   ============================================================ -/

/-- Claim C3: for every rectangular H×W integer grid and every target R×C,
`resize_grid` produces an R×C grid in which every cell at row below
min(H, R) and column below min(W, C) keeps its original value and every
other cell holds the fill value; growth thus appends rows and columns only
at the tail and shrinking truncates only at the tail, never at the head. -/
theorem resize_grid_spec (g : List (List ℤ)) (H W R C : ℕ) (f : ℤ)
    (hH : g.length = H) (hW : ∀ row ∈ g, row.length = W) :
    (resize_grid g R C f).length = R ∧
    (∀ row ∈ resize_grid g R C f, row.length = C) ∧
    ∀ r c, r < R → c < C →
      gridGetD (resize_grid g R C f) r c f =
        if r < H ∧ c < W then gridGetD g r c f else f :=
  ⟨resize_grid_length g R C f, resize_grid_row_length g R C f,
    fun r c hr hc => resize_grid_getD g H W R C f hH hW r c hr hc⟩

theorem resize_grid_spec_witness :
    (resize_grid sampleGrid4 3 6 0).length = 3 ∧
    (∀ row ∈ resize_grid sampleGrid4 3 6 0, row.length = 6) ∧
    ∀ r c, r < 3 → c < 6 →
      gridGetD (resize_grid sampleGrid4 3 6 0) r c 0 =
        if r < 4 ∧ c < 4 then gridGetD sampleGrid4 r c 0 else 0 :=
  resize_grid_spec sampleGrid4 4 4 3 6 0 (by decide) (by decide)

/-- Claim C4: growing a rectangular occupancy grid appends fill columns and
fill rows at the tail leaving the original entries unchanged, and resizing
the grown maze back to the original dimensions recovers the original grid
exactly. -/
theorem resize_roundtrip (g : List (List ℤ)) (H W R C : ℕ) (f f2 : ℤ)
    (hH : g.length = H) (hW : ∀ row ∈ g, row.length = W)
    (hR : H ≤ R) (hC : W ≤ C) :
    resizeMaze (Layout2D.occupancy g) R C f =
      Layout2D.occupancy
        (g.map (fun row => row ++ List.replicate (C - W) f) ++
          List.replicate (R - H) (List.replicate C f)) ∧
    resizeMaze (resizeMaze (Layout2D.occupancy g) R C f) H W f2 =
      Layout2D.occupancy g := by
  constructor
  · simp only [resizeMaze]
    rw [resize_grid_grow g H W R C f hH hW hR hC]
  · simp only [resizeMaze]
    have hlen : (resize_grid g R C f).length = R := resize_grid_length g R C f
    have hrows := resize_grid_row_length g R C f
    have hshr := resize_grid_shrink (resize_grid g R C f) H W f2
      (by rw [hlen]; exact hR)
      (fun row hrow => le_of_le_of_eq hC (hrows row hrow).symm)
    rw [hshr, resize_grid_grow g H W R C f hH hW hR hC,
      List.take_append_of_le_length (by rw [List.length_map, hH]),
      List.take_of_length_le (by rw [List.length_map, hH]), List.map_map]
    conv_rhs => rw [← List.map_id g]
    refine congrArg Layout2D.occupancy ?_
    apply List.map_congr_left
    intro row hrow
    simp only [Function.comp_apply, id_eq]
    rw [List.take_append_of_le_length (le_of_eq (hW row hrow).symm),
      ← hW row hrow, List.take_length]

theorem resize_roundtrip_witness :
    resizeMaze (Layout2D.occupancy sampleGrid4) 4 6 0 =
      Layout2D.occupancy
        (sampleGrid4.map (fun row => row ++ List.replicate (6 - 4) 0) ++
          List.replicate (4 - 4) (List.replicate 6 0)) ∧
    resizeMaze (resizeMaze (Layout2D.occupancy sampleGrid4) 4 6 0) 4 4 0 =
      Layout2D.occupancy sampleGrid4 :=
  resize_roundtrip sampleGrid4 4 4 4 6 0 0 (by decide) (by decide)
    (by omega) (by omega)

/-- The edge wall-lattice shape relation: cells H×W, vertical walls
H×(W+1), horizontal walls (H+1)×W. -/
def EdgeLatticeOK (e : EdgeLayout) (H W : ℕ) : Prop :=
  e.cells.length = H ∧ (∀ row ∈ e.cells, row.length = W) ∧
  e.vertical_walls.length = H ∧
  (∀ row ∈ e.vertical_walls, row.length = W + 1) ∧
  e.horizontal_walls.length = H + 1 ∧
  (∀ row ∈ e.horizontal_walls, row.length = W)

/-- Claim C5: resizing preserves the edge-grid wall-lattice relation, both
for a 2D edge_grid maze and for every level of an edge_grid_3d maze. -/
theorem resize_edge_lattice (e : EdgeLayout) (H W : ℕ)
    (levels : List EdgeLayout) (R C : ℕ) (f : ℤ)
    (_he : EdgeLatticeOK e H W)
    (_hlv : ∀ lv ∈ levels, EdgeLatticeOK lv H W) :
    (resizeMaze (Layout2D.edge e) R C f =
      Layout2D.edge (resizeEdgeLayout e R C f) ∧
     EdgeLatticeOK (resizeEdgeLayout e R C f) R C) ∧
    ∀ lv2 ∈ resizeEdge3D levels R C f, EdgeLatticeOK lv2 R C := by
  refine ⟨⟨rfl, ?_⟩, ?_⟩
  · exact ⟨resize_grid_length _ _ _ _, resize_grid_row_length _ _ _ _,
      resize_grid_length _ _ _ _, resize_grid_row_length _ _ _ _,
      resize_grid_length _ _ _ _, resize_grid_row_length _ _ _ _⟩
  · intro lv2 h2
    obtain ⟨lv, hmem, rfl⟩ := List.mem_map.mp h2
    exact ⟨resize_grid_length _ _ _ _, resize_grid_row_length _ _ _ _,
      resize_grid_length _ _ _ _, resize_grid_row_length _ _ _ _,
      resize_grid_length _ _ _ _, resize_grid_row_length _ _ _ _⟩

theorem resize_edge_lattice_witness :
    (resizeMaze (Layout2D.edge sampleEdge) 3 5 0 =
      Layout2D.edge (resizeEdgeLayout sampleEdge 3 5 0) ∧
     EdgeLatticeOK (resizeEdgeLayout sampleEdge 3 5 0) 3 5) ∧
    ∀ lv2 ∈ resizeEdge3D [sampleEdge] 3 5 0, EdgeLatticeOK lv2 3 5 :=
  resize_edge_lattice sampleEdge 2 2 [sampleEdge] 3 5 0
    ⟨rfl, by decide, rfl, by decide, rfl, by decide⟩
    (by
      intro lv hlv
      rw [List.mem_singleton.mp hlv]
      exact ⟨rfl, by decide, rfl, by decide, rfl, by decide⟩)

/-- Claim C7: `addElement` rejects a duplicate name with the duplicate-name
error, a duplicate token with the duplicate-token error, yields no maze on
any duplicate, and otherwise appends the new element at the end of the
targeted list.  (When both a name and a token duplicate exist the scan
reports the first matching entry.) -/
theorem addElement_spec (es : List MazeElement) (n t : String) :
    ((∀ e ∈ es, e.name ≠ n ∧ e.token ≠ t) →
      addElement es n t = Except.ok (es ++ [{ name := n, token := t }])) ∧
    ((∃ e ∈ es, e.name = n) → (∀ e ∈ es, e.token ≠ t) →
      addElement es n t = Except.error MazeError.duplicateName) ∧
    ((∃ e ∈ es, e.token = t) → (∀ e ∈ es, e.name ≠ n) →
      addElement es n t = Except.error MazeError.duplicateToken) ∧
    ((∃ e ∈ es, e.name = n ∨ e.token = t) →
      ∀ res, addElement es n t ≠ Except.ok res) := by
  refine ⟨?_, ?_, ?_, ?_⟩
  · intro h
    unfold addElement
    rw [findDuplicate_eq_none es n t h]
  · intro h1 h2
    unfold addElement
    rw [findDuplicate_name es n t h1 h2]
  · intro h1 h2
    unfold addElement
    rw [findDuplicate_token es n t h1 h2]
  · intro h res
    unfold addElement
    cases hfd : findDuplicate es n t with
    | none => exact absurd hfd (findDuplicate_isSome es n t h)
    | some err => simp

theorem addElement_spec_witness :
    addElement sampleElements ("goal") ("G") =
      Except.ok (sampleElements ++ [{ name := "goal", token := "G" }]) :=
  (addElement_spec sampleElements ("goal") ("G")).1 (by decide)

/-- Claim C9 counterexample: `updateMaze` invoked against a radial_arm maze
(outside its supported occupancy/edge set) returns success with the maze
unchanged, and `resizeMaze` likewise returns the radial maze unchanged,
instead of reporting a type-mismatch failure. -/
theorem wrong_type_silent_counterexample :
    mazeTypeName (Layout2D.radial sampleRadial) = radialTypeName ∧
    updateMaze (Layout2D.radial sampleRadial) 0 0 5 GridType.cells =
      Except.ok (Layout2D.radial sampleRadial) ∧
    resizeMaze (Layout2D.radial sampleRadial) 2 2 0 =
      Layout2D.radial sampleRadial :=
  ⟨rfl, rfl, rfl⟩

/-- Claim C9 amended: `updateRadialArmCell` rejects every non-radial maze
with a type-mismatch error, but `updateMaze` and `resizeMaze` invoked on a
radial_arm maze silently return success with the maze unchanged instead of
failing. -/
theorem wrong_type_behavior :
    (∀ (g : List (List ℤ)) (armIndex row col : ℕ) (v : ℤ) (gt : GridType),
      updateRadialArmCell (Layout2D.occupancy g) armIndex row col v gt =
        Except.error MazeError.typeMismatch) ∧
    (∀ (e : EdgeLayout) (armIndex row col : ℕ) (v : ℤ) (gt : GridType),
      updateRadialArmCell (Layout2D.edge e) armIndex row col v gt =
        Except.error MazeError.typeMismatch) ∧
    (∀ (l : RadialLayout) (row col : ℕ) (v : ℤ) (gt : GridType),
      updateMaze (Layout2D.radial l) row col v gt =
        Except.ok (Layout2D.radial l)) ∧
    (∀ (l : RadialLayout) (R C : ℕ) (f : ℤ),
      resizeMaze (Layout2D.radial l) R C f = Layout2D.radial l) :=
  ⟨fun _ _ _ _ _ _ => rfl, fun _ _ _ _ _ _ => rfl, fun _ _ _ _ _ => rfl,
    fun _ _ _ _ => rfl⟩

/-- Claim C1: for a radial_arm maze with a circular hub,
`setRadialArmHubSize` computes the minimum radius as
(maximum arm width × arm count) / angle span in radians, fails when the
requested size is strictly below that minimum, and otherwise stores exactly
the requested size; for a polygon hub the minimum side length is the
maximum arm width.  With arm_count 4, maximum width 3 and a 360-degree span
the circular minimum is 12/(2π), which lies between 1.90 and 1.92. -/
theorem setRadialArmHubSize_spec (l : RadialLayout) (hne : l.arms ≠ []) :
    (∀ (mw n : ℕ) (θ : ℝ), minCircularRadius mw n θ =
      ((mw : ℝ) * (n : ℝ)) / (θ * Real.pi / 180)) ∧
    (l.hub.shape = HubShape.circular → ∀ size : ℝ,
      (size < minCircularRadius (maxArmWidth l.arms) l.arms.length
          l.hub.angle_degrees →
        setRadialArmHubSize l size = Except.error MazeError.invalidHubSize) ∧
      (minCircularRadius (maxArmWidth l.arms) l.arms.length
          l.hub.angle_degrees ≤ size →
        setRadialArmHubSize l size = Except.ok
          { arms := l.arms, hub := { l.hub with radius := some size } })) ∧
    (l.hub.shape = HubShape.polygon → ∀ size : ℝ,
      (size < (maxArmWidth l.arms : ℝ) →
        setRadialArmHubSize l size = Except.error MazeError.invalidHubSize) ∧
      ((maxArmWidth l.arms : ℝ) ≤ size →
        setRadialArmHubSize l size = Except.ok
          { arms := l.arms, hub := { l.hub with side_length := some size } })) ∧
    minCircularRadius 3 4 360 = 12 / (2 * Real.pi) ∧
    (1.90 : ℝ) < minCircularRadius 3 4 360 ∧
    minCircularRadius 3 4 360 < (1.92 : ℝ) := by
  have heq : minCircularRadius 3 4 360 = 12 / (2 * Real.pi) := by
    unfold minCircularRadius
    have hpi := Real.pi_ne_zero
    push_cast
    field_simp
    ring
  refine ⟨fun mw n θ => rfl, ?_, ?_, heq, ?_, ?_⟩
  · intro hsh size
    exact ⟨fun hlt => setRadialArmHubSize_circular_err l size hne hsh hlt,
      fun hge => setRadialArmHubSize_circular_ok l size hne hsh hge⟩
  · intro hsh size
    exact ⟨fun hlt => setRadialArmHubSize_polygon_err l size hne hsh hlt,
      fun hge => setRadialArmHubSize_polygon_ok l size hne hsh hge⟩
  · rw [heq]
    rw [lt_div_iff₀ (by positivity)]
    have := Real.pi_lt_d2
    linarith
  · rw [heq]
    rw [div_lt_iff₀ (by positivity)]
    have := Real.pi_gt_d6
    linarith

theorem setRadialArmHubSize_spec_witness :
    sampleRadial.arms ≠ [] ∧
    setRadialArmHubSize sampleRadial 1 =
      Except.error MazeError.invalidHubSize ∧
    setRadialArmHubSize sampleRadial 2 = Except.ok
      { arms := sampleRadial.arms,
        hub := { sampleRadial.hub with radius := some 2 } } := by
  have hne : sampleRadial.arms ≠ [] := by decide
  have h := setRadialArmHubSize_spec sampleRadial hne
  have h190 : (1.90 : ℝ) < minCircularRadius 3 4 360 := h.2.2.2.2.1
  have h192 : minCircularRadius 3 4 360 < (1.92 : ℝ) := h.2.2.2.2.2
  refine ⟨hne, ?_, ?_⟩
  · exact (h.2.1 rfl 1).1 (by
      show (1 : ℝ) < minCircularRadius 3 4 360
      linarith)
  · exact (h.2.1 rfl 2).2 (by
      show minCircularRadius 3 4 360 ≤ (2 : ℝ)
      linarith)

/-- Claim C2: the hub minimum bounds are raise-only: `setRadialArmAngle`,
`setRadialArmCount` and `resizeRadialArm` all recompute the minimum hub
size and raise a stored size below the new minimum up to it, but never
lower a stored size already at or above the minimum. -/
theorem hub_bounds_raise_only (l : RadialLayout) (s : ℝ)
    (hne : l.arms ≠ []) (hs : hubStoredSize l.hub = some s) :
    (∀ a : ℝ, 1 ≤ a → a ≤ 360 →
      ∃ l2, setRadialArmAngle l a = Except.ok l2 ∧ RaiseOnlyFrom s l2) ∧
    (∀ (n : ℕ) (dc dw : ℤ), 1 ≤ n →
      ∃ l2, setRadialArmCount l n dc dw = Except.ok l2 ∧
        RaiseOnlyFrom s l2) ∧
    (∀ (i w len : ℕ) (dc dw : ℤ), i < l.arms.length →
      ∃ l2, resizeRadialArm l i w len dc dw = Except.ok l2 ∧
        RaiseOnlyFrom s l2) := by
  refine ⟨?_, ?_, ?_⟩
  · intro a h1 h2
    refine ⟨_, setRadialArmAngle_ok l a hne h1 h2, ?_⟩
    apply raise_raiseOnlyFrom
    rw [hubStoredSize_setAngle]
    exact hs
  · intro n dc dw h1
    by_cases hgt : l.arms.length < n
    · obtain ⟨t, hlast⟩ : ∃ t, l.arms.getLast? = some t := by
        cases harm : l.arms.getLast? with
        | some t => exact ⟨t, rfl⟩
        | none => exact absurd (List.getLast?_eq_none_iff.mp harm) hne
      refine ⟨_, setRadialArmCount_grow l n dc dw t t.cells.length
        ((t.cells.head?.map List.length).getD 4) hlast rfl rfl hgt, ?_⟩
      rw [raiseHubSize_twice _ l.hub s hs]
      exact raise_raiseOnlyFrom _ l.hub s hs
    · refine ⟨_, setRadialArmCount_shrink l n dc dw h1 (by omega), ?_⟩
      rw [raiseHubSize_twice _ l.hub s hs]
      exact raise_raiseOnlyFrom _ l.hub s hs
  · intro i w len dc dw hi
    refine ⟨_, resizeRadialArm_ok l i w len dc dw hi, ?_⟩
    rw [raiseHubSize_twice _ l.hub s hs]
    exact raise_raiseOnlyFrom _ l.hub s hs

theorem hub_bounds_raise_only_witness :
    sampleRadial.arms ≠ [] ∧ hubStoredSize sampleRadial.hub = some 2 ∧
    (∃ l2, setRadialArmAngle sampleRadial 180 = Except.ok l2 ∧
      RaiseOnlyFrom 2 l2) ∧
    (∃ l2, setRadialArmCount sampleRadial 6 0 1 = Except.ok l2 ∧
      RaiseOnlyFrom 2 l2) ∧
    (∃ l2, resizeRadialArm sampleRadial 0 3 7 0 1 = Except.ok l2 ∧
      RaiseOnlyFrom 2 l2) := by
  have hne : sampleRadial.arms ≠ [] := by decide
  have hs : hubStoredSize sampleRadial.hub = some 2 := rfl
  have h := hub_bounds_raise_only sampleRadial 2 hne hs
  exact ⟨hne, hs, h.1 180 (by norm_num) (by norm_num),
    h.2.1 6 0 1 (by omega), h.2.2 0 3 7 0 1 (by decide)⟩

/-- Claim C6 counterexample: the angle 0.5 lies in the interval (0, 360]
claimed to be accepted, yet `setRadialArmAngle` rejects it with the
invalid-angle error, because the code tests `angle_degrees < 1`. -/
theorem setRadialArmAngle_half_counterexample :
    (0 : ℝ) < 0.5 ∧ (0.5 : ℝ) ≤ 360 ∧
    setRadialArmAngle sampleRadial 0.5 =
      Except.error MazeError.invalidAngle :=
  ⟨by norm_num, by norm_num,
    setRadialArmAngle_err sampleRadial 0.5 (Or.inl (by norm_num))⟩

/-- Claim C6 amended: `setRadialArmAngle` accepts exactly the interval
[1, 360]: every angle in [1, 360] succeeds and stores exactly the given
angle, and every angle below 1 or above 360 fails with the invalid-angle
error. -/
theorem setRadialArmAngle_range (l : RadialLayout) (hne : l.arms ≠ [])
    (a : ℝ) :
    (1 ≤ a → a ≤ 360 → ∃ l2, setRadialArmAngle l a = Except.ok l2 ∧
      l2.hub.angle_degrees = a ∧ l2.arms = l.arms) ∧
    (a < 1 ∨ a > 360 →
      setRadialArmAngle l a = Except.error MazeError.invalidAngle) := by
  constructor
  · intro h1 h2
    refine ⟨_, setRadialArmAngle_ok l a hne h1 h2, ?_, rfl⟩
    rw [raiseHubSize_angle]
  · exact setRadialArmAngle_err l a

theorem setRadialArmAngle_range_witness :
    sampleRadial.arms ≠ [] ∧
    (∃ l2, setRadialArmAngle sampleRadial 90 = Except.ok l2 ∧
      l2.hub.angle_degrees = 90 ∧ l2.arms = sampleRadial.arms) ∧
    setRadialArmAngle sampleRadial 400 =
      Except.error MazeError.invalidAngle := by
  have hne : sampleRadial.arms ≠ [] := by decide
  exact ⟨hne,
    (setRadialArmAngle_range sampleRadial hne 90).1 (by norm_num) (by norm_num),
    (setRadialArmAngle_range sampleRadial hne 400).2 (Or.inr (by norm_num))⟩

/-- Claim C8: arm placement geometry of the radial renderer.  Arm `i` of `N`
over angle span θ points at `-π/2 + (i + 0.5)·(θ/N)`; for a circular hub
the connection offset is `sqrt(R² − (W/2)²)` (cell units, `cellSizePx`
pixels per cell), which puts the arm's outer corners exactly on the hub
circle; for a polygon hub the connection distance is the apothem
`circumradius · cos(angleStep/2)` with
`circumradius = side_length/(2·sin(angleStep/2))` and
`angleStep = θ/sides`. -/
theorem radial_placement_geometry (angleDeg : ℝ) (N i : ℕ) (R : ℝ) (W : ℕ)
    (sideLen : ℝ) (sides : ℕ) (_hR : 0 ≤ R) (hWR : (W : ℝ) / 2 ≤ R) :
    armAngle angleDeg N i =
      -(Real.pi / 2) +
        ((i : ℝ) + 1 / 2) * (angleDeg * Real.pi / 180 / (N : ℝ)) ∧
    circularArmCenterDistance R W =
      cellSizePx * Real.sqrt (R ^ 2 - ((W : ℝ) / 2) ^ 2) ∧
    circularArmCenterDistance R W ^ 2 + ((W : ℝ) * cellSizePx / 2) ^ 2 =
      (R * cellSizePx) ^ 2 ∧
    polygonApothem sideLen angleDeg sides =
      sideLen * cellSizePx /
          (2 * Real.sin (angleDeg * Real.pi / 180 / (sides : ℝ) / 2)) *
        Real.cos (angleDeg * Real.pi / 180 / (sides : ℝ) / 2) := by
  have hcell : (0 : ℝ) ≤ cellSizePx := by norm_num [cellSizePx]
  have h0 : (0 : ℝ) ≤ (W : ℝ) * cellSizePx / 2 := by positivity
  have h1 : (W : ℝ) * cellSizePx / 2 ≤ R * cellSizePx := by
    have h2 := mul_le_mul_of_nonneg_right hWR hcell
    have h3 : (W : ℝ) / 2 * cellSizePx = (W : ℝ) * cellSizePx / 2 := by ring
    linarith
  have hx : (0 : ℝ) ≤
      (R * cellSizePx) ^ 2 - ((W : ℝ) * cellSizePx / 2) ^ 2 :=
    sub_nonneg.mpr (pow_le_pow_left₀ h0 h1 2)
  refine ⟨?_, ?_, ?_, ?_⟩
  · unfold armAngle startAngleRef angleSpanOf
    norm_num
  · unfold circularArmCenterDistance
    rw [max_eq_right hx]
    have hfac : (R * cellSizePx) ^ 2 - ((W : ℝ) * cellSizePx / 2) ^ 2 =
        cellSizePx ^ 2 * (R ^ 2 - ((W : ℝ) / 2) ^ 2) := by ring
    rw [hfac, Real.sqrt_mul (by positivity), Real.sqrt_sq hcell]
  · unfold circularArmCenterDistance
    rw [max_eq_right hx, Real.sq_sqrt hx]
    ring
  · unfold polygonApothem polygonCircumradius polygonHalfAngleStep angleSpanOf
    rfl

theorem radial_placement_geometry_witness :
    armAngle 360 4 0 =
      -(Real.pi / 2) +
        ((0 : ℕ) + 1 / 2 : ℝ) * (360 * Real.pi / 180 / ((4 : ℕ) : ℝ)) ∧
    circularArmCenterDistance 2 3 =
      cellSizePx * Real.sqrt ((2 : ℝ) ^ 2 - (((3 : ℕ) : ℝ) / 2) ^ 2) ∧
    circularArmCenterDistance 2 3 ^ 2 + (((3 : ℕ) : ℝ) * cellSizePx / 2) ^ 2 =
      ((2 : ℝ) * cellSizePx) ^ 2 ∧
    polygonApothem 3 360 4 =
      (3 : ℝ) * cellSizePx /
          (2 * Real.sin (360 * Real.pi / 180 / ((4 : ℕ) : ℝ) / 2)) *
        Real.cos (360 * Real.pi / 180 / ((4 : ℕ) : ℝ) / 2) :=
  radial_placement_geometry 360 4 0 2 3 3 4 (by norm_num) (by norm_num)

/-- Claim C10: `setRadialArmCount` touches only the tail of the arm
sequence: a target below 1 fails; a larger target appends the new arms at
the end, each sized after the last existing arm (cells W×L, vertical walls
W×(L+1), horizontal walls (W+1)×L) and filled with the default cell and
wall values; a smaller target keeps exactly the leading arms. -/
theorem setRadialArmCount_tail (l : RadialLayout) (t : Arm) (W L : ℕ)
    (r0 : List ℤ) (hlast : l.arms.getLast? = some t)
    (hW : t.cells.length = W) (hr0 : t.cells.head? = some r0)
    (hL : r0.length = L) :
    (∀ dc dw : ℤ, setRadialArmCount l 0 dc dw =
      Except.error MazeError.invalidArmCount) ∧
    (∀ (n : ℕ) (dc dw : ℤ), l.arms.length < n →
      ∃ l2, setRadialArmCount l n dc dw = Except.ok l2 ∧
        l2.arms = l.arms ++ List.replicate (n - l.arms.length)
          { cells := List.replicate W (List.replicate L dc),
            vertical_walls := List.replicate W (List.replicate (L + 1) dw),
            horizontal_walls :=
              List.replicate (W + 1) (List.replicate L dw) }) ∧
    (∀ (n : ℕ) (dc dw : ℤ), 1 ≤ n → n ≤ l.arms.length →
      ∃ l2, setRadialArmCount l n dc dw = Except.ok l2 ∧
        l2.arms = l.arms.take n) := by
  refine ⟨fun dc dw => setRadialArmCount_err l dc dw, ?_, ?_⟩
  · intro n dc dw hgt
    have hL2 : (t.cells.head?.map List.length).getD 4 = L := by
      rw [hr0]
      simp only [Option.map_some', Option.getD_some]
      exact hL
    exact ⟨_, setRadialArmCount_grow l n dc dw t W L hlast hW hL2 hgt, rfl⟩
  · intro n dc dw h1 hle
    exact ⟨_, setRadialArmCount_shrink l n dc dw h1 hle, rfl⟩

theorem setRadialArmCount_tail_witness :
    (∀ dc dw : ℤ, setRadialArmCount sampleRadial 0 dc dw =
      Except.error MazeError.invalidArmCount) ∧
    (∃ l2, setRadialArmCount sampleRadial 6 0 1 = Except.ok l2 ∧
      l2.arms = sampleRadial.arms ++
        List.replicate (6 - sampleRadial.arms.length)
          { cells := List.replicate 3 (List.replicate 4 0),
            vertical_walls := List.replicate 3 (List.replicate (4 + 1) 1),
            horizontal_walls :=
              List.replicate (3 + 1) (List.replicate 4 1) }) ∧
    (∃ l2, setRadialArmCount sampleRadial 2 0 1 = Except.ok l2 ∧
      l2.arms = sampleRadial.arms.take 2) := by
  have h := setRadialArmCount_tail sampleRadial sampleArm 3 4
    (List.replicate 4 0) (by decide) rfl rfl rfl
  exact ⟨h.1, h.2.1 6 0 1 (by decide), h.2.2 2 0 1 (by omega) (by decide)⟩
